import Mathlib

/-!
Shallow embedding of the `what-the-fetch` request-building and validation
pipeline (`src/index.ts` together with its utilities module: `validateData`,
`parseMethodFromPath`, `validateRequestData`).

JavaScript runtime values that flow through the pipeline are modelled by
`JValue` (with an explicit `undefined` constructor, since the code distinguishes
`undefined` from `null`).  JavaScript plain objects are modelled as
association lists `JObj` whose lookup takes the LAST binding for a key, which
matches both object-spread (`{...a, ...b}` — later spread wins) and property
assignment (`obj.k = v` appends a final binding).  `JSON.stringify` is
modelled by `jStr`.  The external collaborators are parameters: the transport
(`fetch`) is a function from the request to a `Response`, and the external
URL builder (`createUrl` from the `fast-url` package, out of scope per the
specification) is represented by the triple of arguments the code hands it.
-/

/-- A JavaScript runtime value as seen by the pipeline: `undefined` models
`undefined`, the remaining constructors model JSON-representable values. -/
inductive JValue where
  | undefined : JValue
  | jnull : JValue
  | jbool : Bool → JValue
  | jnum : Int → JValue
  | jstr : String → JValue
  | jarr : List JValue → JValue
  | jobj : List (String × JValue) → JValue
deriving Repr

/-- A JavaScript plain object: an association list of properties.  Later
bindings shadow earlier ones (object-spread / assignment semantics). -/
abbrev JObj : Type := List (String × JValue)

/-- Property lookup on a JavaScript object literal built by spreads and
assignments: the LAST binding for a key wins. -/
def jlookup (o : JObj) (k : String) : Option JValue :=
  match o with
  | [] => none
  | (k2, v) :: rest =>
    match jlookup rest k with
    | some w => some w
    | none => if k2 = k then some v else none

/-- Reading a property that may be absent yields `undefined` in JavaScript. -/
def getJ (o : JObj) (k : String) : JValue :=
  match jlookup o k with
  | some v => v
  | none => .undefined

/-- Escape of one character inside a JSON string literal, as produced by
`JSON.stringify` (quote, backslash and the common control characters). -/
def jsonEscapeChar (c : Char) : String :=
  if c = '"' then "\\\""
  else if c = '\\' then "\\\\"
  else if c = '\n' then "\\n"
  else if c = '\r' then "\\r"
  else if c = '\t' then "\\t"
  else String.mk [c]

/-- A JSON string literal: quoted and escaped, as `JSON.stringify` emits. -/
def jsonQuote (s : String) : String :=
  "\"" ++ String.join (s.data.map jsonEscapeChar) ++ "\""

mutual

/-- `JSON.stringify` on a runtime value.  Top-level `undefined` produces no
string (`JSON.stringify(undefined)` is `undefined`), hence the `Option`. -/
def jStr : JValue → Option String
  | .undefined => none
  | .jnull => some "null"
  | .jbool true => some "true"
  | .jbool false => some "false"
  | .jnum n => some (toString n)
  | .jstr s => some (jsonQuote s)
  | .jarr xs => some ("[" ++ String.intercalate "," (jStrList xs) ++ "]")
  | .jobj fs => some ("\x7b" ++ String.intercalate "," (jStrFields fs) ++ "\x7d")

/-- Array elements: `undefined` entries serialize as `null`. -/
def jStrList : List JValue → List String
  | [] => []
  | x :: xs => (jStr x).getD "null" :: jStrList xs

/-- Object entries: properties whose value serializes to nothing
(`undefined`) are omitted. -/
def jStrFields : List (String × JValue) → List String
  | [] => []
  | (k, v) :: fs =>
    match jStr v with
    | none => jStrFields fs
    | some s => (jsonQuote k ++ ":" ++ s) :: jStrFields fs

end

/-- `JSON.stringify` where the code guarantees a string comes back (the
pipeline only serializes values that are not `undefined`). -/
def jStringify (v : JValue) : String :=
  (jStr v).getD "undefined"

/-- JavaScript regex `\w`: ASCII letter, digit or underscore. -/
def wordChar (c : Char) : Bool :=
  ('a' ≤ c && c ≤ 'z') || ('A' ≤ c && c ≤ 'Z') || ('0' ≤ c && c ≤ '9') || c = '_'

/-- JavaScript regex line terminators, which `.` does not match. -/
def lineTerm (c : Char) : Bool :=
  c = '\n' || c = '\r' || c = '\u2028' || c = '\u2029'

/-- The test `PARAMS_REGEX.test(path)` with `PARAMS_REGEX = /\/:\w+/`: does
the character list contain a `/` immediately followed by `:` and at least one
word character. -/
def hasParamSeg : List Char → Bool
  | [] => false
  | c :: rest =>
    (c = '/' &&
      match rest with
      | ':' :: d :: _ => wordChar d
      | _ => false) || hasParamSeg rest

/-- `PARAMS_REGEX.test` on a string. -/
def paramsRegexTest (s : String) : Bool :=
  hasParamSeg s.data

/-- `parseMethodFromPath` from the utilities module.  It runs
`METHOD_PREFIX_REGEX = /^@(\w+)(\/.*)?$/` against the path: the whole string
must be `@`, then one or more word characters (greedy; backtracking cannot
help since the optional group must start with `/` and `$` must be reached),
then either nothing or `/` followed by characters `.` can match (no line
terminators).  On a match it returns the upper-cased group 1 (the matched
characters are ASCII, so per-character upper-casing agrees with JavaScript
`toUpperCase`) and `match[2] || '/'`; otherwise `[undefined, path]`. -/
def parseMethodFromPath (path : String) : Option String × String :=
  match path.data with
  | [] => (none, path)
  | c :: rest =>
    if c = '@' then
      let w := rest.takeWhile wordChar
      let tail := rest.dropWhile wordChar
      if w.isEmpty then (none, path)
      else
        match tail with
        | [] => (some (String.mk (w.map Char.toUpper)), "/")
        | c2 :: t =>
          if c2 = '/' && t.all (fun d => !lineTerm d) then
            (some (String.mk (w.map Char.toUpper)), String.mk tail)
          else (none, path)
    else (none, path)

/-- Upper-casing as the parser applies it to the matched method word. -/
def upperStr (s : String) : String :=
  String.mk (s.data.map Char.toUpper)

/-- The truthiness test `body !== undefined && body !== null` used both for
default-method resolution and for body attachment. -/
def jsPresent : JValue → Bool
  | .undefined => false
  | .jnull => false
  | _ => true

/-- An HTTP response as the pipeline observes it: `ok`, `status`, and the
value `response.json()` resolves to. -/
structure Response where
  ok : Bool
  status : Nat
  jsonBody : JValue

/-- Which `throw` site of the pipeline produced an error (the specification's
error taxonomy: setup, validation, transport/HTTP). -/
inductive ErrorKind where
  | setup : ErrorKind
  | validation : ErrorKind
  | http : ErrorKind
deriving Repr, DecidableEq

/-- A thrown `Error`: the throw site, the exact message string, and the
`cause` option (only the HTTP error attaches one — the raw response). -/
structure JError where
  kind : ErrorKind
  message : String
  cause : Option Response

/-- A Standard Schema validation outcome: the success shape carries a value,
the failure shape carries the `issues` list (issue objects, serialized
verbatim into the error message). -/
inductive VResult where
  | success : JValue → VResult
  | failure : List JValue → VResult

/-- A pluggable validator: the external collaborator's single validation
entry point `schema['~standard'].validate`. -/
def Validator : Type := JValue → VResult

/-- The schema bundle declared for one path key: an optional validator per
option kind.  `Option` models an absent (undefined) property. -/
structure SchemaBundle where
  params : Option Validator
  query : Option Validator
  body : Option Validator
  response : Option Validator

/-- A schema bundle declaring no validator at all. -/
def emptyBundle : SchemaBundle :=
  ⟨none, none, none, none⟩

/-- The option kinds `validateData` can be asked to check. -/
inductive SchemaKind where
  | params : SchemaKind
  | query : SchemaKind
  | body : SchemaKind
  | response : SchemaKind
deriving Repr, DecidableEq

/-- The property access `apiSchema[option]` in `validateData`. -/
def SchemaBundle.get (s : SchemaBundle) : SchemaKind → Option Validator
  | .params => s.params
  | .query => s.query
  | .body => s.body
  | .response => s.response

/-- `validateData` from the utilities module: if no schema is registered for
the requested kind, return the data unchanged; otherwise run the validator;
a result carrying `issues` throws `Validation failed: ` followed by
`JSON.stringify(result.issues)`, and a success result yields its value. -/
def validateData (apiSchema : SchemaBundle) (option : SchemaKind)
    (data : JValue) : Except JError JValue :=
  match apiSchema.get option with
  | none => .ok data
  | some schema =>
    match schema data with
    | .failure issues =>
      .error ⟨.validation, "Validation failed: " ++ jStringify (.jarr issues), none⟩
    | .success value => .ok value

/-- The caller-supplied request options `{ params?, query?, body? }`; an
omitted property reads as `undefined`. -/
structure FetchOptions where
  params : JValue
  query : JValue
  body : JValue

/-- Reading `options?.params` etc. when `options` itself may be omitted. -/
def optParams : Option FetchOptions → JValue
  | none => .undefined
  | some o => o.params

/-- Reading `options?.query`. -/
def optQuery : Option FetchOptions → JValue
  | none => .undefined
  | some o => o.query

/-- Reading `options?.body`. -/
def optBody : Option FetchOptions → JValue
  | none => .undefined
  | some o => o.body

/-- The exact message of the setup error thrown by `validateRequestData`. -/
def setupErrorMessage : String :=
  "Path contains parameters but no \"params\" schema is defined."

/-- `validateRequestData` from the utilities module: strip the method prefix,
fail fast with the setup error when the clean path matches `PARAMS_REGEX` and
no `params` schema is declared, otherwise validate params, query and body
(`Promise.all`: every validator here settles synchronously, so the join is
the left-to-right sequence with the first rejection propagated). -/
def validateRequestData (apiSchema : SchemaBundle) (path : String)
    (options : Option FetchOptions) : Except JError (JValue × JValue × JValue) :=
  if paramsRegexTest (parseMethodFromPath path).2 && (apiSchema.params.isNone) then
    .error ⟨.setup, setupErrorMessage, none⟩
  else
    match validateData apiSchema .params (optParams options) with
    | .error e => .error e
    | .ok p =>
      match validateData apiSchema .query (optQuery options) with
      | .error e => .error e
      | .ok q =>
        match validateData apiSchema .body (optBody options) with
        | .error e => .error e
        | .ok b => .ok (p, q, b)

/-- `method || (body !== undefined && body !== null ? 'POST' : 'GET')`: the
JavaScript `||` falls through on a falsy left operand (`undefined`, or the
empty string — the parser never yields an empty method, but `||` is modelled
as written). -/
def resolveMethod (method : Option String) (body : JValue) : String :=
  let dflt := if jsPresent body then "POST" else "GET"
  match method with
  | none => dflt
  | some m => if m = "" then dflt else m

/-- The argument triple the code passes to the external URL builder
`createUrl(baseUrl, cleanPath, {...params, ...query})`.  The builder itself
is an out-of-scope collaborator, so the final URL is represented by its
inputs. -/
structure UrlParts where
  base : String
  path : String
  subst : JObj

/-- Spreading a validated value into an object literal: a plain object
contributes its properties, `undefined`/`null` contribute nothing (the
validated params/query are records or `undefined` by typing). -/
def spreadFields : JValue → JObj
  | .jobj fs => fs
  | _ => []

/-- The headers object literal
`{'Content-Type': 'application/json', ...sharedInit?.headers, ...init?.headers}`. -/
def buildHeaders (sharedInit init : JObj) : JObj :=
  ([("Content-Type", JValue.jstr "application/json")] : JObj)
    ++ spreadFields (getJ sharedInit "headers")
    ++ spreadFields (getJ init "headers")

/-- The transport collaborator (`fetch`): from the URL-builder arguments and
the outbound `RequestInit` object to a response. -/
def Transport : Type := UrlParts → JObj → Response

/-- The observable outcome of one call: the trace of transport invocations,
how many times a response body was decoded (`response.json()`), and the
settled result. -/
structure FetchOutcome where
  calls : List (UrlParts × JObj)
  bodyReads : Nat
  result : Except JError JValue

/-- The outbound `RequestInit` object: the spreads
`{...sharedInit, ...init, method, headers}` followed by the conditional
property assignment `requestInit.body = JSON.stringify(body)`. -/
def buildRequestInit (sharedInit init : JObj) (httpMethod : String)
    (body : JValue) : JObj :=
  let requestInit0 : JObj :=
    sharedInit ++ init
      ++ ([("method", JValue.jstr httpMethod),
           ("headers", JValue.jobj (buildHeaders sharedInit init))] : JObj)
  if jsPresent body then
    requestInit0 ++ ([("body", JValue.jstr (jStringify body))] : JObj)
  else requestInit0

/-- The arguments handed to the URL-building collaborator:
`createUrl(baseUrl, cleanPath, {...params, ...query})`. -/
def buildUrlParts (baseUrl cleanPath : String) (params query : JValue) : UrlParts :=
  ⟨baseUrl, cleanPath, spreadFields params ++ spreadFields query⟩

/-- The per-call function returned by `createFetch`, for one path key.
`apiSchema` is the bundle the schema map holds at that key; `sharedInit` and
`init` are the shared and per-call `RequestInit` fragments as raw objects
(an omitted fragment is the empty object: spreading `undefined` contributes
nothing); `transport` is the `fetch` collaborator.  Mirrors `src/index.ts`:
validate request data, parse the method prefix, resolve the method, build
`requestInit` by spreads, conditionally attach the serialized body, build
the URL arguments, perform the call, check `response.ok`, decode and
validate the response. -/
def callFetch (apiSchema : SchemaBundle) (baseUrl : String) (sharedInit : JObj)
    (path : String) (options : Option FetchOptions) (init : JObj)
    (transport : Transport) : FetchOutcome :=
  match validateRequestData apiSchema path options with
  | .error e => ⟨[], 0, .error e⟩
  | .ok (params, query, body) =>
    let parsed := parseMethodFromPath path
    let httpMethod := resolveMethod parsed.1 body
    let requestInit := buildRequestInit sharedInit init httpMethod body
    let url := buildUrlParts baseUrl parsed.2 params query
    let response := transport url requestInit
    if response.ok then
      match validateData apiSchema .response response.jsonBody with
      | .error e => ⟨[(url, requestInit)], 1, .error e⟩
      | .ok v => ⟨[(url, requestInit)], 1, .ok v⟩
    else
      ⟨[(url, requestInit)], 0,
        .error ⟨.http, "HTTP error! status: " ++ toString response.status,
                some response⟩⟩

/-- Does `hay` start with `needle` (character lists)? -/
def startsWithList : List Char → List Char → Bool
  | [], _ => true
  | _ :: _, [] => false
  | a :: as, b :: bs => a = b && startsWithList as bs

/-- Does `hay` contain `needle` as a contiguous run? -/
def hasSubstr (needle : List Char) : List Char → Bool
  | [] => needle.isEmpty
  | c :: t => startsWithList needle (c :: t) || hasSubstr needle t

/-- Substring containment on strings (the sense in which an error message
"contains" a fragment). -/
def strContains (hay needle : String) : Bool :=
  hasSubstr needle.data hay.data

/-- Is every character of the string a `\w` word character? -/
def allWordChars (s : String) : Bool :=
  s.data.all wordChar

/-- Does the string avoid every regex line terminator? -/
def noLineTerms (s : String) : Bool :=
  s.data.all (fun c => !lineTerm c)

/-- Modelled from the spec's words (for comparison with the source parser,
which is the authority): the claim describes the method-prefix pattern as
`@<letters>` immediately followed by `/` or end-of-string — letters, where
the source regex accepts any `\w` word character.  Structured exactly like
`parseMethodFromPath` with `Char.isAlpha` (ASCII letters) in place of
`wordChar`. -/
def claimParseMethodLetters (path : String) : Option String × String :=
  match path.data with
  | [] => (none, path)
  | c :: rest =>
    if c = '@' then
      let w := rest.takeWhile Char.isAlpha
      let tail := rest.dropWhile Char.isAlpha
      if w.isEmpty then (none, path)
      else
        match tail with
        | [] => (some (String.mk (w.map Char.toUpper)), "/")
        | c2 :: t =>
          if c2 = '/' && t.all (fun d => !lineTerm d) then
            (some (String.mk (w.map Char.toUpper)), String.mk tail)
          else (none, path)
    else (none, path)

/-- A transport stub that always succeeds with an object body. -/
def tOK : Transport :=
  fun _ _ => ⟨true, 200, .jobj [("id", .jnum 123)]⟩

/-- A transport stub that always fails with status 404. -/
def tFail : Transport :=
  fun _ _ => ⟨false, 404, .jobj []⟩

/-- A bundle whose only validator is a `body` validator that transforms any
input (in particular `undefined`) into the empty object. -/
def bundleBodyToObj : SchemaBundle :=
  ⟨none, none, some (fun _ => .success (.jobj [])), none⟩

/-- A bundle whose only validator is a `body` validator that transforms any
input into `undefined`. -/
def bundleBodyToUndef : SchemaBundle :=
  ⟨none, none, some (fun _ => .success .undefined), none⟩

/-- A bundle whose only validator is a `response` validator that always
yields the failure shape with the single issue `{message: "bad"}`. -/
def bundleRespBad : SchemaBundle :=
  ⟨none, none, none, some (fun _ => .failure [.jobj [("message", .jstr "bad")]])⟩

/-- A bundle declaring only a pass-through `params` validator. -/
def bundlePassParams : SchemaBundle :=
  ⟨some (fun v => .success v), none, none, none⟩

/-- A bundle declaring only a pass-through `body` validator. -/
def bundlePassBody : SchemaBundle :=
  ⟨none, none, some (fun v => .success v), none⟩

theorem jlookup_cons (k2 : String) (v : JValue) (rest : JObj) (k : String) :
    jlookup ((k2, v) :: rest) k =
      (jlookup rest k).or (if k2 = k then some v else none) := by
  cases h : jlookup rest k with
  | some w => simp [jlookup, h, Option.or]
  | none => simp [jlookup, h, Option.or]

theorem jlookup_append (a b : JObj) (k : String) :
    jlookup (a ++ b) k = (jlookup b k).or (jlookup a k) := by
  induction a with
  | nil => cases h : jlookup b k <;> simp [jlookup, Option.or, h]
  | cons hd tl ih =>
    obtain ⟨k2, v⟩ := hd
    rw [List.cons_append, jlookup_cons, jlookup_cons, ih, Option.or_assoc]

theorem startsWithList_refl (l : List Char) : startsWithList l l = true := by
  induction l with
  | nil => rfl
  | cons c t ih => simp [startsWithList, ih]

theorem startsWithList_append (a b : List Char) :
    startsWithList a (a ++ b) = true := by
  induction a with
  | nil => rfl
  | cons c t ih => simp [startsWithList, ih]

theorem hasSubstr_of_startsWith (n h : List Char)
    (hs : startsWithList n h = true) : hasSubstr n h = true := by
  cases h with
  | nil =>
    cases n with
    | nil => rfl
    | cons c t => simp [startsWithList] at hs
  | cons c t => simp [hasSubstr, hs]

theorem hasSubstr_cons (n : List Char) (c : Char) (t : List Char)
    (hs : hasSubstr n t = true) : hasSubstr n (c :: t) = true := by
  simp [hasSubstr, hs]

theorem hasSubstr_append_left (a n h : List Char)
    (hs : hasSubstr n h = true) : hasSubstr n (a ++ h) = true := by
  induction a with
  | nil => exact hs
  | cons c t ih => exact hasSubstr_cons _ _ _ ih

theorem strContains_append_right (a b : String) :
    strContains (a ++ b) b = true := by
  unfold strContains
  rw [String.data_append]
  exact hasSubstr_append_left _ _ _
    (hasSubstr_of_startsWith _ _ (startsWithList_refl _))

theorem strContains_append_left (a b : String) :
    strContains (a ++ b) a = true := by
  unfold strContains
  rw [String.data_append]
  exact hasSubstr_of_startsWith _ _ (startsWithList_append _ _)

theorem str_eq_of_data (a b : String) (h : a.data = b.data) : a = b :=
  congrArg String.mk h

theorem str_data_ne_nil (w : String) (h : w ≠ "") : w.data ≠ [] := by
  intro hd
  exact h (str_eq_of_data _ _ (by simpa using hd))

theorem takeWhile_of_all (p : Char → Bool) (xs : List Char)
    (h : xs.all p = true) :
    xs.takeWhile p = xs ∧ xs.dropWhile p = [] := by
  induction xs with
  | nil => exact ⟨rfl, rfl⟩
  | cons c t ih =>
    simp only [List.all_cons, Bool.and_eq_true] at h
    have h2 := ih h.2
    simp [List.takeWhile, List.dropWhile, h.1, h2.1, h2.2]

theorem takeWhile_append_stop (p : Char → Bool) (xs : List Char) (y : Char)
    (ys : List Char) (hxs : xs.all p = true) (hy : p y = false) :
    (xs ++ y :: ys).takeWhile p = xs ∧ (xs ++ y :: ys).dropWhile p = y :: ys := by
  induction xs with
  | nil => simp [List.takeWhile, List.dropWhile, hy]
  | cons c t ih =>
    simp only [List.all_cons, Bool.and_eq_true] at hxs
    have h2 := ih hxs.2
    simp [List.takeWhile, List.dropWhile, hxs.1, h2.1, h2.2]

theorem all_takeWhile (p : Char → Bool) (xs : List Char) :
    (xs.takeWhile p).all p = true := by
  induction xs with
  | nil => rfl
  | cons c t ih =>
    cases hc : p c with
    | false => simp [List.takeWhile, hc]
    | true => simp [List.takeWhile, hc, List.all_cons, ih]

theorem validateData_none (bundle : SchemaBundle) (kind : SchemaKind)
    (d : JValue) (h : bundle.get kind = none) :
    validateData bundle kind d = .ok d := by
  simp [validateData, h]

theorem validateData_failure (bundle : SchemaBundle) (kind : SchemaKind)
    (d : JValue) (v : Validator) (issues : List JValue)
    (hv : bundle.get kind = some v) (hf : v d = .failure issues) :
    validateData bundle kind d =
      .error ⟨.validation, "Validation failed: " ++ jStringify (.jarr issues), none⟩ := by
  simp [validateData, hv, hf]

theorem validateData_success (bundle : SchemaBundle) (kind : SchemaKind)
    (d : JValue) (v : Validator) (val : JValue)
    (hv : bundle.get kind = some v) (hs : v d = .success val) :
    validateData bundle kind d = .ok val := by
  simp [validateData, hv, hs]

theorem validateData_error_kind (bundle : SchemaBundle) (kind : SchemaKind)
    (d : JValue) (e : JError)
    (h : validateData bundle kind d = .error e) : e.kind = .validation := by
  unfold validateData at h
  cases hg : bundle.get kind with
  | none =>
    rw [hg] at h
    exact Except.noConfusion h
  | some v =>
    rw [hg] at h
    simp only [] at h
    cases hv : v d with
    | success val =>
      rw [hv] at h
      exact Except.noConfusion h
    | failure issues =>
      rw [hv] at h
      injection h with h2
      rw [← h2]

theorem validateRequestData_setup (bundle : SchemaBundle) (path : String)
    (options : Option FetchOptions)
    (h1 : paramsRegexTest (parseMethodFromPath path).2 = true)
    (h2 : bundle.params = none) :
    validateRequestData bundle path options =
      .error ⟨.setup, setupErrorMessage, none⟩ := by
  simp [validateRequestData, h1, h2]

theorem validateRequestData_ok_parts (bundle : SchemaBundle) (path : String)
    (options : Option FetchOptions) (p q b : JValue)
    (h : validateRequestData bundle path options = .ok (p, q, b)) :
    validateData bundle .params (optParams options) = .ok p ∧
    validateData bundle .query (optQuery options) = .ok q ∧
    validateData bundle .body (optBody options) = .ok b := by
  unfold validateRequestData at h
  by_cases hc :
      (paramsRegexTest (parseMethodFromPath path).2 && bundle.params.isNone) = true
  · rw [if_pos hc] at h
    exact Except.noConfusion h
  · rw [if_neg hc] at h
    cases h1 : validateData bundle .params (optParams options) with
    | error e => rw [h1] at h; exact Except.noConfusion h
    | ok p0 =>
      rw [h1] at h
      cases h2 : validateData bundle .query (optQuery options) with
      | error e => rw [h2] at h; exact Except.noConfusion h
      | ok q0 =>
        rw [h2] at h
        cases h3 : validateData bundle .body (optBody options) with
        | error e => rw [h3] at h; exact Except.noConfusion h
        | ok b0 =>
          rw [h3] at h
          injection h with h4
          simp only [Prod.mk.injEq] at h4
          obtain ⟨ha, hb, hc2⟩ := h4
          subst ha
          subst hb
          subst hc2
          exact ⟨rfl, rfl, rfl⟩

theorem validateRequestData_error_kind (bundle : SchemaBundle) (path : String)
    (options : Option FetchOptions) (e : JError)
    (hreg : paramsRegexTest (parseMethodFromPath path).2 = false)
    (h : validateRequestData bundle path options = .error e) :
    e.kind = .validation := by
  unfold validateRequestData at h
  rw [hreg] at h
  simp only [Bool.false_and] at h
  rw [if_neg Bool.false_ne_true] at h
  cases h1 : validateData bundle .params (optParams options) with
  | error e0 =>
    rw [h1] at h
    injection h with h2
    rw [← h2]
    exact validateData_error_kind _ _ _ _ h1
  | ok p0 =>
    rw [h1] at h
    cases h2 : validateData bundle .query (optQuery options) with
    | error e0 =>
      rw [h2] at h
      injection h with h3
      rw [← h3]
      exact validateData_error_kind _ _ _ _ h2
    | ok q0 =>
      rw [h2] at h
      cases h3 : validateData bundle .body (optBody options) with
      | error e0 =>
        rw [h3] at h
        injection h with h4
        rw [← h4]
        exact validateData_error_kind _ _ _ _ h3
      | ok b0 =>
        rw [h3] at h
        exact Except.noConfusion h

theorem callFetch_err (bundle : SchemaBundle) (baseUrl : String)
    (sharedInit : JObj) (path : String) (options : Option FetchOptions)
    (init : JObj) (transport : Transport) (e : JError)
    (hval : validateRequestData bundle path options = .error e) :
    callFetch bundle baseUrl sharedInit path options init transport =
      ⟨[], 0, .error e⟩ := by
  unfold callFetch
  rw [hval]

theorem callFetch_ok (bundle : SchemaBundle) (baseUrl : String)
    (sharedInit : JObj) (path : String) (options : Option FetchOptions)
    (init : JObj) (transport : Transport) (p q b : JValue)
    (hval : validateRequestData bundle path options = .ok (p, q, b)) :
    callFetch bundle baseUrl sharedInit path options init transport =
      (let requestInit := buildRequestInit sharedInit init
        (resolveMethod (parseMethodFromPath path).1 b) b
      let url := buildUrlParts baseUrl (parseMethodFromPath path).2 p q
      let response := transport url requestInit
      if response.ok then
        match validateData bundle .response response.jsonBody with
        | .error e => ⟨[(url, requestInit)], 1, .error e⟩
        | .ok v => ⟨[(url, requestInit)], 1, .ok v⟩
      else
        ⟨[(url, requestInit)], 0,
          .error ⟨.http, "HTTP error! status: " ++ toString response.status,
                  some response⟩⟩) := by
  unfold callFetch
  rw [hval]

theorem jlookup_buildRequestInit_method (s i : JObj) (m : String) (b : JValue) :
    jlookup (buildRequestInit s i m b) "method" = some (.jstr m) := by
  unfold buildRequestInit
  by_cases hb : jsPresent b = true
  · rw [if_pos hb, jlookup_append, jlookup_append]
    rfl
  · rw [if_neg hb, jlookup_append]
    rfl

theorem jlookup_buildRequestInit_headers (s i : JObj) (m : String) (b : JValue) :
    jlookup (buildRequestInit s i m b) "headers" =
      some (.jobj (buildHeaders s i)) := by
  unfold buildRequestInit
  by_cases hb : jsPresent b = true
  · rw [if_pos hb, jlookup_append, jlookup_append]
    rfl
  · rw [if_neg hb, jlookup_append]
    rfl

theorem jlookup_buildRequestInit_body_present (s i : JObj) (m : String)
    (b : JValue) (hb : jsPresent b = true) :
    jlookup (buildRequestInit s i m b) "body" =
      some (.jstr (jStringify b)) := by
  unfold buildRequestInit
  rw [if_pos hb, jlookup_append]
  rfl

theorem jlookup_buildRequestInit_body_absent (s i : JObj) (m : String)
    (b : JValue) (hb : jsPresent b = false) :
    jlookup (buildRequestInit s i m b) "body" = jlookup (s ++ i) "body" := by
  unfold buildRequestInit
  rw [if_neg (by rw [hb]; exact Bool.false_ne_true), jlookup_append]
  rfl

theorem jlookup_buildRequestInit_other (s i : JObj) (m : String) (b : JValue)
    (k : String) (h1 : k ≠ "method") (h2 : k ≠ "headers") (h3 : k ≠ "body") :
    jlookup (buildRequestInit s i m b) k = jlookup (s ++ i) k := by
  have n1 : ¬("method" = k) := fun h => h1 h.symm
  have n2 : ¬("headers" = k) := fun h => h2 h.symm
  have n3 : ¬("body" = k) := fun h => h3 h.symm
  have hpair : jlookup ([("method", JValue.jstr m),
      ("headers", JValue.jobj (buildHeaders s i))] : JObj) k = none := by
    rw [jlookup_cons, jlookup_cons]
    simp [jlookup, n1, n2, Option.or]
  have hbody : jlookup ([("body", JValue.jstr (jStringify b))] : JObj) k = none := by
    rw [jlookup_cons]
    simp [jlookup, n3, Option.or]
  unfold buildRequestInit
  by_cases hb : jsPresent b = true
  · rw [if_pos hb, jlookup_append, jlookup_append, hpair, hbody]
    rfl
  · rw [if_neg hb, jlookup_append, hpair]
    rfl

theorem jlookup_buildHeaders (s i : JObj) (k : String) :
    jlookup (buildHeaders s i) k =
      (jlookup (spreadFields (getJ i "headers")) k).or
        ((jlookup (spreadFields (getJ s "headers")) k).or
          (if "Content-Type" = k
            then some (.jstr "application/json") else none)) := by
  unfold buildHeaders
  rw [jlookup_append, jlookup_append, jlookup_cons]
  cases hif : (if ("Content-Type" = k)
      then some (JValue.jstr "application/json") else none) <;> rfl

theorem jsPresent_of_ne (b : JValue) (h1 : b ≠ .undefined) (h2 : b ≠ .jnull) :
    jsPresent b = true := by
  cases b
  case undefined => exact absurd rfl h1
  case jnull => exact absurd rfl h2
  all_goals rfl

theorem jsPresent_false_of (b : JValue) (h : b = .undefined ∨ b = .jnull) :
    jsPresent b = false := by
  rcases h with h | h <;> rw [h] <;> rfl

theorem parseMethodFromPath_nil (s : String) (h : s.data = []) :
    parseMethodFromPath s = (none, s) := by
  unfold parseMethodFromPath
  rw [h]

theorem parseMethodFromPath_cons (s : String) (c : Char) (rest : List Char)
    (h : s.data = c :: rest) :
    parseMethodFromPath s =
      (if c = '@' then
        if (rest.takeWhile wordChar).isEmpty then (none, s)
        else
          match rest.dropWhile wordChar with
          | [] => (some (String.mk ((rest.takeWhile wordChar).map Char.toUpper)), "/")
          | c2 :: t =>
            if c2 = '/' && t.all (fun d => !lineTerm d) then
              (some (String.mk ((rest.takeWhile wordChar).map Char.toUpper)),
                String.mk (rest.dropWhile wordChar))
            else (none, s)
      else (none, s)) := by
  unfold parseMethodFromPath
  rw [h]

theorem parse_method_ne_empty (path m : String)
    (h : (parseMethodFromPath path).1 = some m) : m ≠ "" := by
  cases hd : path.data with
  | nil =>
    rw [parseMethodFromPath_nil _ hd] at h
    exact Option.noConfusion h
  | cons c rest =>
    rw [parseMethodFromPath_cons _ _ _ hd] at h
    by_cases hc : c = '@'
    · rw [if_pos hc] at h
      by_cases hw : (rest.takeWhile wordChar).isEmpty = true
      · rw [if_pos hw] at h
        exact Option.noConfusion h
      · rw [if_neg hw] at h
        have hm : m = String.mk ((rest.takeWhile wordChar).map Char.toUpper) := by
          cases ht : rest.dropWhile wordChar with
          | nil =>
            rw [ht] at h
            have h2 : some (String.mk ((rest.takeWhile wordChar).map Char.toUpper))
                = some m := h
            injection h2 with h3
            exact h3.symm
          | cons c2 t =>
            rw [ht] at h
            have h' : (if (c2 = '/' && t.all (fun d => !lineTerm d)) = true then
                  (some (String.mk ((rest.takeWhile wordChar).map Char.toUpper)),
                    String.mk (c2 :: t))
                else ((none : Option String), path)).1 = some m := h
            by_cases hcond : (c2 = '/' && t.all (fun d => !lineTerm d)) = true
            · rw [if_pos hcond] at h'
              injection h' with h3
              exact h3.symm
            · rw [if_neg hcond] at h'
              exact Option.noConfusion h'
        intro hemp
        rw [hemp] at hm
        have hdata : ((rest.takeWhile wordChar).map Char.toUpper) = [] := by
          have := congrArg String.data hm
          simpa using this.symm
        have hnil : rest.takeWhile wordChar = [] := List.map_eq_nil_iff.mp hdata
        rw [hnil] at hw
        exact hw rfl
    · rw [if_neg hc] at h
      exact Option.noConfusion h

/-- C4: the Validation Engine round-trips: with no validator registered for a
kind, `validate` returns the input unchanged; with a pass-through validator
(one returning the success shape carrying its input unchanged) registered, it
also returns the input unchanged. -/
theorem validation_roundtrip (bundle : SchemaBundle) (kind : SchemaKind)
    (X : JValue) :
    (bundle.get kind = none → validateData bundle kind X = .ok X) ∧
    (∀ v, bundle.get kind = some v → (∀ y, v y = .success y) →
      validateData bundle kind X = .ok X) := by
  constructor
  · intro h
    exact validateData_none _ _ _ h
  · intro v hv hpass
    exact validateData_success _ _ _ _ _ hv (hpass X)

/-- Witness for C4 at concrete inputs: an unregistered kind passes the value
through, and a registered pass-through validator does too. -/
theorem validation_roundtrip_witness :
    validateData emptyBundle .query (.jstr "X") = .ok (.jstr "X") ∧
    validateData bundlePassBody .body (.jstr "X") = .ok (.jstr "X") :=
  ⟨(validation_roundtrip emptyBundle .query (.jstr "X")).1 rfl,
   (validation_roundtrip bundlePassBody .body (.jstr "X")).2
     (fun v => .success v) rfl (fun _ => rfl)⟩

theorem callFetch_result_response_error (bundle : SchemaBundle)
    (baseUrl : String) (sharedInit : JObj) (path : String)
    (options : Option FetchOptions) (init : JObj) (transport : Transport)
    (p q b : JValue) (e : JError)
    (hval : validateRequestData bundle path options = .ok (p, q, b))
    (hok : ∀ u ri, (transport u ri).ok = true)
    (herr : ∀ u ri,
      validateData bundle .response (transport u ri).jsonBody = .error e) :
    (callFetch bundle baseUrl sharedInit path options init transport).result
      = .error e := by
  rw [callFetch_ok _ _ _ _ _ _ _ _ _ _ hval]
  dsimp only
  simp [hok, herr]

/-- C3: when a registered validator returns the failure shape, `validateData`
raises an error whose message is `Validation failed` followed by the
JSON-serialized issue list verbatim, and the overall call rejects with that
error and never resolves to a value (shown generally for the response kind,
and concretely for a response validator producing the single issue
`{message: "bad"}`). -/
theorem validation_failure_message (bundle : SchemaBundle) (kind : SchemaKind)
    (d : JValue) (v : Validator) (issues : List JValue)
    (hv : bundle.get kind = some v) (hf : v d = .failure issues) :
    validateData bundle kind d =
      .error ⟨.validation,
        "Validation failed: " ++ jStringify (.jarr issues), none⟩ ∧
    strContains ("Validation failed: " ++ jStringify (.jarr issues))
      "Validation failed" = true ∧
    strContains ("Validation failed: " ++ jStringify (.jarr issues))
      (jStringify (.jarr issues)) = true ∧
    (∀ baseUrl sharedInit path options init p q b,
      kind = .response →
      validateRequestData bundle path options = .ok (p, q, b) →
      (callFetch bundle baseUrl sharedInit path options init
          (fun _ _ => ⟨true, 200, d⟩)).result =
        .error ⟨.validation,
          "Validation failed: " ++ jStringify (.jarr issues), none⟩ ∧
      ∀ x, (callFetch bundle baseUrl sharedInit path options init
          (fun _ _ => ⟨true, 200, d⟩)).result ≠ .ok x) ∧
    (callFetch bundleRespBad "b" [] "/users" none [] tOK).result =
      .error ⟨.validation,
        "Validation failed: [\x7b\"message\":\"bad\"\x7d]", none⟩ := by
  have hsplit : ("Validation failed: " ++ jStringify (.jarr issues)) =
      "Validation failed" ++ (": " ++ jStringify (.jarr issues)) := rfl
  refine ⟨validateData_failure _ _ _ _ _ hv hf, ?_, ?_, ?_, rfl⟩
  · rw [hsplit]
    exact strContains_append_left _ _
  · exact strContains_append_right _ _
  · intro baseUrl sharedInit path options init p q b hkind hval
    subst hkind
    have hres := callFetch_result_response_error bundle baseUrl sharedInit
      path options init (fun _ _ => ⟨true, 200, d⟩) p q b
      ⟨.validation, "Validation failed: " ++ jStringify (.jarr issues), none⟩
      hval (fun _ _ => rfl)
      (fun _ _ => validateData_failure _ _ _ _ _ hv hf)
    refine ⟨hres, ?_⟩
    intro x hx
    rw [hres] at hx
    exact Except.noConfusion hx

/-- Witness for C3 at a concrete input: a `response` validator that fails
with issue `{message: "bad"}` makes the validation step raise the exact
serialized message. -/
theorem validation_failure_message_witness :
    validateData bundleRespBad .response (.jobj [("id", .jnum 123)]) =
      .error ⟨.validation,
        "Validation failed: [\x7b\"message\":\"bad\"\x7d]", none⟩ :=
  (validation_failure_message bundleRespBad .response (.jobj [("id", .jnum 123)])
    (fun _ => .failure [.jobj [("message", .jstr "bad")]])
    [.jobj [("message", .jstr "bad")]] rfl rfl).1

/-- C1: when the canonical path (method prefix stripped) contains a named
segment and the bundle declares no `params` validator, the call settles as
the setup error — message containing `params` — with no transport invocation
and no body decode, whatever the other validators, options and transport are;
and when the canonical path contains no named segment, no error of the setup
kind is ever produced. -/
theorem setupError_exactly_on_named_segments (bundle : SchemaBundle)
    (baseUrl path : String) (sharedInit init : JObj)
    (options : Option FetchOptions) (transport : Transport) :
    (paramsRegexTest (parseMethodFromPath path).2 = true → bundle.params = none →
      callFetch bundle baseUrl sharedInit path options init transport =
        ⟨[], 0, .error ⟨.setup, setupErrorMessage, none⟩⟩ ∧
      strContains setupErrorMessage "params" = true) ∧
    (paramsRegexTest (parseMethodFromPath path).2 = false →
      ∀ e, (callFetch bundle baseUrl sharedInit path options init
          transport).result = .error e → e.kind ≠ .setup) := by
  constructor
  · intro h1 h2
    refine ⟨callFetch_err _ _ _ _ _ _ _ _
      (validateRequestData_setup _ _ _ h1 h2), ?_⟩
    rfl
  · intro hreg e hres hkind
    cases hvr : validateRequestData bundle path options with
    | error e0 =>
      rw [callFetch_err _ _ _ _ _ _ _ _ hvr] at hres
      injection hres with h2
      have hk := validateRequestData_error_kind _ _ _ _ hreg hvr
      rw [h2, hkind] at hk
      exact ErrorKind.noConfusion hk
    | ok triple =>
      obtain ⟨p, q, b⟩ := triple
      rw [callFetch_ok _ _ _ _ _ _ _ _ _ _ hvr] at hres
      dsimp only at hres
      by_cases hok : (transport
          (buildUrlParts baseUrl (parseMethodFromPath path).2 p q)
          (buildRequestInit sharedInit init
            (resolveMethod (parseMethodFromPath path).1 b) b)).ok = true
      · rw [hok] at hres
        rw [if_pos rfl] at hres
        cases hvd : validateData bundle .response (transport
            (buildUrlParts baseUrl (parseMethodFromPath path).2 p q)
            (buildRequestInit sharedInit init
              (resolveMethod (parseMethodFromPath path).1 b) b)).jsonBody with
        | error e1 =>
          rw [hvd] at hres
          injection hres with h2
          have hk := validateData_error_kind _ _ _ _ hvd
          rw [h2, hkind] at hk
          exact ErrorKind.noConfusion hk
        | ok v =>
          rw [hvd] at hres
          exact Except.noConfusion hres
      · rw [if_neg hok] at hres
        injection hres with h2
        rw [← h2] at hkind
        exact ErrorKind.noConfusion hkind

/-- Witness for C1 at a concrete input: path `/users/:id` with no declared
validators settles as the setup error with an empty transport trace. -/
theorem setupError_exactly_on_named_segments_witness :
    callFetch emptyBundle "https://api.example.com" [] "/users/:id" none [] tOK =
      ⟨[], 0, .error ⟨.setup, setupErrorMessage, none⟩⟩ :=
  ((setupError_exactly_on_named_segments emptyBundle "https://api.example.com"
    "/users/:id" [] [] none tOK).1 rfl rfl).1

theorem callFetch_calls (bundle : SchemaBundle) (baseUrl : String)
    (sharedInit : JObj) (path : String) (options : Option FetchOptions)
    (init : JObj) (transport : Transport) (p q b : JValue)
    (hval : validateRequestData bundle path options = .ok (p, q, b)) :
    (callFetch bundle baseUrl sharedInit path options init transport).calls =
      [(buildUrlParts baseUrl (parseMethodFromPath path).2 p q,
        buildRequestInit sharedInit init
          (resolveMethod (parseMethodFromPath path).1 b) b)] := by
  rw [callFetch_ok _ _ _ _ _ _ _ _ _ _ hval]
  dsimp only
  by_cases hok : (transport
      (buildUrlParts baseUrl (parseMethodFromPath path).2 p q)
      (buildRequestInit sharedInit init
        (resolveMethod (parseMethodFromPath path).1 b) b)).ok = true
  · rw [hok, if_pos rfl]
    cases hvd : validateData bundle .response (transport
        (buildUrlParts baseUrl (parseMethodFromPath path).2 p q)
        (buildRequestInit sharedInit init
          (resolveMethod (parseMethodFromPath path).1 b) b)).jsonBody <;>
      rfl
  · rw [if_neg hok]

/-- C2: the effective method of the outbound request is the parsed explicit
method when the path key carries a method prefix, otherwise `POST` when the
validated body is neither `undefined` nor `null` and `GET` otherwise; in
particular `@put/users/:id` with a body resolves `PUT`, `/users` with a body
resolves `POST`, and `/users` without a body resolves `GET`. -/
theorem method_resolution_policy (bundle : SchemaBundle) (baseUrl path : String)
    (sharedInit init : JObj) (options : Option FetchOptions)
    (transport : Transport) (p q b : JValue)
    (hval : validateRequestData bundle path options = .ok (p, q, b)) :
    (∃ u ri,
      (callFetch bundle baseUrl sharedInit path options init transport).calls =
        [(u, ri)] ∧
      (∀ m, (parseMethodFromPath path).1 = some m →
        jlookup ri "method" = some (.jstr m)) ∧
      ((parseMethodFromPath path).1 = none → b ≠ .undefined → b ≠ .jnull →
        jlookup ri "method" = some (.jstr "POST")) ∧
      ((parseMethodFromPath path).1 = none → (b = .undefined ∨ b = .jnull) →
        jlookup ri "method" = some (.jstr "GET"))) ∧
    (callFetch bundlePassParams "b" [] "@put/users/:id"
        (some ⟨.jobj [("id", .jnum 1)], .undefined, .jobj []⟩) [] tOK).calls.map
      (fun c => jlookup c.2 "method") = [some (.jstr "PUT")] ∧
    (callFetch emptyBundle "b" [] "/users"
        (some ⟨.undefined, .undefined, .jobj []⟩) [] tOK).calls.map
      (fun c => jlookup c.2 "method") = [some (.jstr "POST")] ∧
    (callFetch emptyBundle "b" [] "/users" none [] tOK).calls.map
      (fun c => jlookup c.2 "method") = [some (.jstr "GET")] := by
  refine ⟨⟨buildUrlParts baseUrl (parseMethodFromPath path).2 p q,
    buildRequestInit sharedInit init
      (resolveMethod (parseMethodFromPath path).1 b) b,
    callFetch_calls _ _ _ _ _ _ _ _ _ _ hval, ?_, ?_, ?_⟩, rfl, rfl, rfl⟩
  · intro m hm
    have hr : resolveMethod (parseMethodFromPath path).1 b = m := by
      rw [hm]
      unfold resolveMethod
      dsimp only
      rw [if_neg (parse_method_ne_empty path m hm)]
    rw [jlookup_buildRequestInit_method, hr]
  · intro hnone h1 h2
    have hr : resolveMethod (parseMethodFromPath path).1 b = "POST" := by
      rw [hnone]
      unfold resolveMethod
      dsimp only
      rw [jsPresent_of_ne b h1 h2, if_pos rfl]
    rw [jlookup_buildRequestInit_method, hr]
  · intro hnone hor
    have hr : resolveMethod (parseMethodFromPath path).1 b = "GET" := by
      rw [hnone]
      unfold resolveMethod
      dsimp only
      rw [jsPresent_false_of b hor, if_neg Bool.false_ne_true]
    rw [jlookup_buildRequestInit_method, hr]

/-- Witness for C2 at a concrete input: a prefix-free path with a validated
body present dispatches with method `POST`. -/
theorem method_resolution_policy_witness :
    ∃ u ri,
      (callFetch emptyBundle "base" [] "/items"
        (some ⟨.undefined, .undefined, .jobj [("n", .jnum 1)]⟩) [] tOK).calls =
        [(u, ri)] ∧
      jlookup ri "method" = some (.jstr "POST") := by
  obtain ⟨u, ri, hcalls, _, hpost, _⟩ :=
    (method_resolution_policy emptyBundle "base" "/items" [] []
      (some ⟨.undefined, .undefined, .jobj [("n", .jnum 1)]⟩) tOK .undefined .undefined
      (.jobj [("n", .jnum 1)]) rfl).1
  exact ⟨u, ri, hcalls, hpost rfl (by intro h; cases h) (by intro h; cases h)⟩

/-- Counterexample to C5 as stated: a shared configuration carrying a `body`
entry flows into the outbound request object, so a call whose validated body
is `undefined` still carries a `body` field — the claimed "no body field
attached" fails for such calls. -/
theorem body_attachment_config_leak_cex :
    validateRequestData emptyBundle "/users" none =
      .ok (.undefined, .undefined, .undefined) ∧
    (callFetch emptyBundle "https://api.example.com"
        [("body", JValue.jstr "x")] "/users" none [] tOK).calls.map
      (fun c => jlookup c.2 "body") = [some (.jstr "x")] ∧
    ¬ ((callFetch emptyBundle "https://api.example.com"
        [("body", JValue.jstr "x")] "/users" none [] tOK).calls.map
      (fun c => jlookup c.2 "body") = [none]) := by
  refine ⟨rfl, rfl, ?_⟩
  intro h
  have h2 : ([some (JValue.jstr "x")] : List (Option JValue)) = [none] := h
  injection h2 with h3
  exact Option.noConfusion h3

/-- C5 as amended: provided neither the shared nor the per-call configuration
fragment itself supplies a `body` entry, the outbound request carries a
serialized JSON body exactly when the validated body is neither `undefined`
nor `null`; `null` and `undefined` bodies leave no `body` field, and the
empty-object body serializes to the two-character empty-object form. -/
theorem body_attachment_iff_present (bundle : SchemaBundle)
    (baseUrl path : String) (sharedInit init : JObj)
    (options : Option FetchOptions) (transport : Transport) (p q b : JValue)
    (hval : validateRequestData bundle path options = .ok (p, q, b))
    (hs : jlookup sharedInit "body" = none)
    (hi : jlookup init "body" = none) :
    (∃ u ri,
      (callFetch bundle baseUrl sharedInit path options init transport).calls =
        [(u, ri)] ∧
      (b ≠ .undefined → b ≠ .jnull →
        jlookup ri "body" = some (.jstr (jStringify b))) ∧
      ((b = .undefined ∨ b = .jnull) → jlookup ri "body" = none)) ∧
    (callFetch emptyBundle "b" [] "/users"
        (some ⟨.undefined, .undefined, .jobj []⟩) [] tOK).calls.map
      (fun c => jlookup c.2 "body") = [some (.jstr "\x7b\x7d")] ∧
    (callFetch emptyBundle "b" [] "/users"
        (some ⟨.undefined, .undefined, .jnull⟩) [] tOK).calls.map
      (fun c => jlookup c.2 "body") = [none] ∧
    (callFetch emptyBundle "b" [] "/users" none [] tOK).calls.map
      (fun c => jlookup c.2 "body") = [none] := by
  refine ⟨⟨buildUrlParts baseUrl (parseMethodFromPath path).2 p q,
    buildRequestInit sharedInit init
      (resolveMethod (parseMethodFromPath path).1 b) b,
    callFetch_calls _ _ _ _ _ _ _ _ _ _ hval, ?_, ?_⟩, rfl, rfl, rfl⟩
  · intro h1 h2
    exact jlookup_buildRequestInit_body_present _ _ _ _ (jsPresent_of_ne b h1 h2)
  · intro hor
    rw [jlookup_buildRequestInit_body_absent _ _ _ _ (jsPresent_false_of b hor),
      jlookup_append, hi, hs]
    rfl

/-- Witness for the amended C5 at a concrete input: an empty-object validated
body is attached serialized as the empty JSON object. -/
theorem body_attachment_iff_present_witness :
    ∃ u ri,
      (callFetch emptyBundle "base" [] "/items"
        (some ⟨.undefined, .undefined, .jobj []⟩) [] tOK).calls = [(u, ri)] ∧
      jlookup ri "body" = some (.jstr "\x7b\x7d") := by
  obtain ⟨⟨u, ri, hcalls, hpres, _⟩, _⟩ :=
    body_attachment_iff_present emptyBundle "base" "/items" [] []
      (some ⟨.undefined, .undefined, .jobj []⟩) tOK .undefined .undefined (.jobj [])
      rfl rfl rfl
  exact ⟨u, ri, hcalls,
    hpres (by intro h; cases h) (by intro h; cases h)⟩

/-- Counterexample to C6 as stated: the outbound configuration is not the
shallow merge of shared and per-call configuration at the `body` key — when a
validated body is present the pipeline overwrites a config-supplied `body`
entry with the serialized validated body, so the merge description fails for
that key. -/
theorem config_merge_body_override_cex :
    (callFetch emptyBundle "b" [("body", JValue.jstr "x")] "/users"
        (some ⟨.undefined, .undefined, .jobj []⟩) [] tOK).calls.map
      (fun c => jlookup c.2 "body") = [some (.jstr "\x7b\x7d")] ∧
    jlookup (([("body", JValue.jstr "x")] : JObj) ++ ([] : JObj)) "body" =
      some (.jstr "x") ∧
    ¬ ((callFetch emptyBundle "b" [("body", JValue.jstr "x")] "/users"
        (some ⟨.undefined, .undefined, .jobj []⟩) [] tOK).calls.map
      (fun c => jlookup c.2 "body") =
      [jlookup (([("body", JValue.jstr "x")] : JObj) ++ ([] : JObj)) "body"]) := by
  refine ⟨rfl, rfl, ?_⟩
  intro h
  have h2 : ([some (JValue.jstr "\x7b\x7d")] : List (Option JValue)) =
      [some (JValue.jstr "x")] := h
  injection h2 with h3
  injection h3 with h4
  injection h4 with h5
  exact absurd h5 (by decide)

/-- C6 as amended: the outbound request configuration is the shallow merge of
shared and per-call configuration (per-call entries overriding shared
entries) at every key other than `method`, `headers`, and `body`; at `body`
the merge still applies whenever the validated body is absent; the headers
map is the last-writer-wins merge of the default content type, then shared
headers, then per-call headers; and the resolved method is applied last, so
neither configuration fragment can override it. -/
theorem config_merge_precedence (bundle : SchemaBundle) (baseUrl path : String)
    (sharedInit init : JObj) (options : Option FetchOptions)
    (transport : Transport) (p q b : JValue)
    (hval : validateRequestData bundle path options = .ok (p, q, b)) :
    (∃ u ri hs,
      (callFetch bundle baseUrl sharedInit path options init transport).calls =
        [(u, ri)] ∧
      (∀ k, jlookup (sharedInit ++ init) k =
        (jlookup init k).or (jlookup sharedInit k)) ∧
      (∀ k, k ≠ "method" → k ≠ "headers" → k ≠ "body" →
        jlookup ri k = jlookup (sharedInit ++ init) k) ∧
      ((b = .undefined ∨ b = .jnull) →
        jlookup ri "body" = jlookup (sharedInit ++ init) "body") ∧
      jlookup ri "method" =
        some (.jstr (resolveMethod (parseMethodFromPath path).1 b)) ∧
      jlookup ri "headers" = some (.jobj hs) ∧
      (∀ k, jlookup hs k =
        (jlookup (spreadFields (getJ init "headers")) k).or
          ((jlookup (spreadFields (getJ sharedInit "headers")) k).or
            (if "Content-Type" = k
              then some (.jstr "application/json") else none)))) ∧
    (callFetch emptyBundle "b"
        [("headers", JValue.jobj [("X-A", JValue.jstr "1")])] "/users" none
        [("headers", JValue.jobj
          [("X-A", JValue.jstr "2"), ("X-B", JValue.jstr "3")])] tOK).calls.map
      (fun c =>
        match jlookup c.2 "headers" with
        | some (.jobj hs) =>
          (jlookup hs "X-A", jlookup hs "X-B", jlookup hs "Content-Type")
        | _ => (none, none, none)) =
      [(some (.jstr "2"), some (.jstr "3"),
        some (.jstr "application/json"))] := by
  refine ⟨⟨buildUrlParts baseUrl (parseMethodFromPath path).2 p q,
    buildRequestInit sharedInit init
      (resolveMethod (parseMethodFromPath path).1 b) b,
    buildHeaders sharedInit init,
    callFetch_calls _ _ _ _ _ _ _ _ _ _ hval,
    fun k => jlookup_append _ _ _, ?_, ?_,
    jlookup_buildRequestInit_method _ _ _ _,
    jlookup_buildRequestInit_headers _ _ _ _,
    fun k => jlookup_buildHeaders _ _ _⟩, rfl⟩
  · intro k h1 h2 h3
    exact jlookup_buildRequestInit_other _ _ _ _ _ h1 h2 h3
  · intro hor
    exact jlookup_buildRequestInit_body_absent _ _ _ _ (jsPresent_false_of b hor)

/-- Witness for the amended C6 at a concrete input: shared header `X-A:1`
with per-call headers `X-A:2, X-B:3` yields final headers `X-A:2`, `X-B:3`
and the default content type. -/
theorem config_merge_precedence_witness :
    ∃ u ri hs,
      (callFetch emptyBundle "b"
        [("headers", JValue.jobj [("X-A", JValue.jstr "1")])] "/users" none
        [("headers", JValue.jobj
          [("X-A", JValue.jstr "2"), ("X-B", JValue.jstr "3")])] tOK).calls =
        [(u, ri)] ∧
      jlookup ri "headers" = some (.jobj hs) ∧
      jlookup hs "X-A" = some (.jstr "2") ∧
      jlookup hs "X-B" = some (.jstr "3") ∧
      jlookup hs "Content-Type" = some (.jstr "application/json") := by
  obtain ⟨⟨u, ri, hs, hcalls, _, _, _, _, hhdr, hlook⟩, _⟩ :=
    config_merge_precedence emptyBundle "b" "/users"
      [("headers", JValue.jobj [("X-A", JValue.jstr "1")])]
      [("headers", JValue.jobj
        [("X-A", JValue.jstr "2"), ("X-B", JValue.jstr "3")])]
      none tOK .undefined .undefined .undefined rfl
  refine ⟨u, ri, hs, hcalls, hhdr, ?_, ?_, ?_⟩
  · rw [hlook "X-A"]
    rfl
  · rw [hlook "X-B"]
    rfl
  · rw [hlook "Content-Type"]
    rfl

/-- C8: when the transport's response is non-ok the call rejects with the
HTTP error carrying the numeric status in its message and the raw response as
cause, the response body is never decoded, and exactly one transport call is
made (no retry). -/
theorem http_error_policy (bundle : SchemaBundle) (baseUrl path : String)
    (sharedInit init : JObj) (options : Option FetchOptions)
    (transport : Transport) (p q b : JValue)
    (hval : validateRequestData bundle path options = .ok (p, q, b)) :
    ∃ u ri,
      (callFetch bundle baseUrl sharedInit path options init transport).calls =
        [(u, ri)] ∧
      ((transport u ri).ok = false →
        (callFetch bundle baseUrl sharedInit path options init
            transport).result =
          .error ⟨.http,
            "HTTP error! status: " ++ toString (transport u ri).status,
            some (transport u ri)⟩ ∧
        (callFetch bundle baseUrl sharedInit path options init
            transport).bodyReads = 0 ∧
        (callFetch bundle baseUrl sharedInit path options init
            transport).calls.length = 1 ∧
        strContains
          ("HTTP error! status: " ++ toString (transport u ri).status)
          (toString (transport u ri).status) = true) := by
  refine ⟨buildUrlParts baseUrl (parseMethodFromPath path).2 p q,
    buildRequestInit sharedInit init
      (resolveMethod (parseMethodFromPath path).1 b) b,
    callFetch_calls _ _ _ _ _ _ _ _ _ _ hval, ?_⟩
  intro hko
  have hshape : callFetch bundle baseUrl sharedInit path options init
      transport =
      ⟨[(buildUrlParts baseUrl (parseMethodFromPath path).2 p q,
         buildRequestInit sharedInit init
           (resolveMethod (parseMethodFromPath path).1 b) b)], 0,
       .error ⟨.http,
         "HTTP error! status: " ++ toString (transport
           (buildUrlParts baseUrl (parseMethodFromPath path).2 p q)
           (buildRequestInit sharedInit init
             (resolveMethod (parseMethodFromPath path).1 b) b)).status,
         some (transport
           (buildUrlParts baseUrl (parseMethodFromPath path).2 p q)
           (buildRequestInit sharedInit init
             (resolveMethod (parseMethodFromPath path).1 b) b))⟩⟩ := by
    rw [callFetch_ok _ _ _ _ _ _ _ _ _ _ hval]
    dsimp only
    rw [hko, if_neg Bool.false_ne_true]
  rw [hshape]
  exact ⟨rfl, rfl, rfl, strContains_append_right _ _⟩

/-- Witness for C8 at a concrete input: a transport answering status 404
makes the call reject with the HTTP error and a zero body-decode count. -/
theorem http_error_policy_witness :
    (callFetch emptyBundle "b" [] "/users" none [] tFail).result =
      .error ⟨.http, "HTTP error! status: 404",
        some ⟨false, 404, .jobj []⟩⟩ ∧
    (callFetch emptyBundle "b" [] "/users" none [] tFail).bodyReads = 0 := by
  obtain ⟨u, ri, hcalls, himp⟩ :=
    http_error_policy emptyBundle "b" "/users" [] [] none tFail
      .undefined .undefined .undefined rfl
  obtain ⟨hres, hreads, _, _⟩ := himp rfl
  have ht : tFail u ri = ⟨false, 404, JValue.jobj []⟩ := rfl
  rw [ht] at hres
  exact ⟨hres, hreads⟩

/-- C9: the transport is invoked with the URL-builder arguments — the base
URL, the canonical path (method prefix stripped), and the union of the
validated params and query maps, in which query entries win on key
collision because they are merged after params. -/
theorem url_building_union (bundle : SchemaBundle) (baseUrl path : String)
    (sharedInit init : JObj) (options : Option FetchOptions)
    (transport : Transport) (p q b : JValue)
    (hval : validateRequestData bundle path options = .ok (p, q, b)) :
    ∃ ri,
      (callFetch bundle baseUrl sharedInit path options init transport).calls =
        [(buildUrlParts baseUrl (parseMethodFromPath path).2 p q, ri)] ∧
      (buildUrlParts baseUrl (parseMethodFromPath path).2 p q).base = baseUrl ∧
      (buildUrlParts baseUrl (parseMethodFromPath path).2 p q).path =
        (parseMethodFromPath path).2 ∧
      (buildUrlParts baseUrl (parseMethodFromPath path).2 p q).subst =
        spreadFields p ++ spreadFields q ∧
      (∀ k, jlookup (spreadFields p ++ spreadFields q) k =
        (jlookup (spreadFields q) k).or (jlookup (spreadFields p) k)) :=
  ⟨_, callFetch_calls _ _ _ _ _ _ _ _ _ _ hval, rfl, rfl, rfl,
    fun k => jlookup_append _ _ k⟩

/-- Witness for C9 at a concrete input: params and query colliding on key
`a` reach the URL builder with the query value winning. -/
theorem url_building_union_witness :
    (callFetch emptyBundle "b" [] "/users"
        (some ⟨.jobj [("a", .jstr "p")], .jobj [("a", .jstr "q")], .undefined⟩)
        [] tOK).calls.map
      (fun c => (c.1.base, c.1.path, jlookup c.1.subst "a")) =
      [("b", "/users", some (JValue.jstr "q"))] := by
  obtain ⟨ri, hcalls, _, _, _, hq⟩ :=
    url_building_union emptyBundle "b" "/users" [] []
      (some ⟨.jobj [("a", .jstr "p")], .jobj [("a", .jstr "q")], .undefined⟩)
      tOK (.jobj [("a", .jstr "p")]) (.jobj [("a", .jstr "q")]) .undefined rfl
  rw [hcalls]
  rfl

/-- C10: default-method resolution and body serialization consult the
validated body (the body validator's output), not the caller-supplied
options body: a body validator mapping `undefined` to an object yields
`POST` with a serialized body on a body-less call, and one mapping its
input to `undefined` yields `GET` with no body attached. -/
theorem validated_body_drives_dispatch (bundle : SchemaBundle)
    (baseUrl path : String) (sharedInit init : JObj)
    (options : Option FetchOptions) (transport : Transport) (p q b : JValue)
    (hval : validateRequestData bundle path options = .ok (p, q, b)) :
    (∀ v, bundle.body = some v → v (optBody options) = .success b) ∧
    (∃ u ri,
      (callFetch bundle baseUrl sharedInit path options init transport).calls =
        [(u, ri)] ∧
      jlookup ri "method" =
        some (.jstr (resolveMethod (parseMethodFromPath path).1 b)) ∧
      (b ≠ .undefined → b ≠ .jnull →
        jlookup ri "body" = some (.jstr (jStringify b)))) ∧
    (callFetch bundleBodyToObj "b" [] "/users" none [] tOK).calls.map
      (fun c => (jlookup c.2 "method", jlookup c.2 "body")) =
      [(some (.jstr "POST"), some (.jstr "\x7b\x7d"))] ∧
    (callFetch bundleBodyToUndef "b" [] "/users"
        (some ⟨.undefined, .undefined, .jobj []⟩) [] tOK).calls.map
      (fun c => (jlookup c.2 "method", jlookup c.2 "body")) =
      [(some (.jstr "GET"), none)] := by
  refine ⟨?_, ⟨buildUrlParts baseUrl (parseMethodFromPath path).2 p q,
    buildRequestInit sharedInit init
      (resolveMethod (parseMethodFromPath path).1 b) b,
    callFetch_calls _ _ _ _ _ _ _ _ _ _ hval,
    jlookup_buildRequestInit_method _ _ _ _, ?_⟩, rfl, rfl⟩
  · intro v hv
    have hv2 : bundle.get .body = some v := hv
    have hb := (validateRequestData_ok_parts _ _ _ _ _ _ hval).2.2
    cases hres : v (optBody options) with
    | failure issues =>
      rw [validateData_failure _ _ _ _ _ hv2 hres] at hb
      exact Except.noConfusion hb
    | success val =>
      rw [validateData_success _ _ _ _ _ hv2 hres] at hb
      injection hb with h2
      exact congrArg VResult.success h2
  · intro h1 h2
    exact jlookup_buildRequestInit_body_present _ _ _ _ (jsPresent_of_ne b h1 h2)

/-- Witness for C10 at a concrete input: a body validator producing an
object from a body-less call dispatches `POST` with the serialized empty
object attached. -/
theorem validated_body_drives_dispatch_witness :
    ∃ u ri,
      (callFetch bundleBodyToObj "base2" [] "/users" none [] tOK).calls =
        [(u, ri)] ∧
      jlookup ri "method" = some (.jstr "POST") ∧
      jlookup ri "body" = some (.jstr "\x7b\x7d") := by
  obtain ⟨_, ⟨u, ri, hcalls, hm, hb⟩, _, _⟩ :=
    validated_body_drives_dispatch bundleBodyToObj "base2" "/users" [] []
      none tOK .undefined .undefined (.jobj []) rfl
  exact ⟨u, ri, hcalls, hm,
    hb (by intro h; cases h) (by intro h; cases h)⟩

/-- Counterexample to C7 as stated: the source regex accepts any word
character in the method prefix, not only letters — on path key `@1/x` the
claimed letters-only pattern does not match (so the claim predicts no method
and an unchanged canonical path), but the parser extracts method `1` with
canonical path `/x`. -/
theorem method_prefix_letters_cex :
    claimParseMethodLetters "@1/x" = (none, "@1/x") ∧
    parseMethodFromPath "@1/x" = (some "1", "/x") ∧
    ¬ (parseMethodFromPath "@1/x" = claimParseMethodLetters "@1/x") := by
  refine ⟨by decide, by decide, ?_⟩
  intro h
  have h2 : ((some "1", "/x") : Option String × String) =
      ((none : Option String), "@1/x") :=
    (show parseMethodFromPath "@1/x" = (some "1", "/x") by decide).symm.trans
      (h.trans (show claimParseMethodLetters "@1/x" =
        ((none : Option String), "@1/x") by decide))
  simp at h2

theorem isEmpty_data_false (w : String) (hne : w ≠ "") :
    w.data.isEmpty = false := by
  cases hc : w.data with
  | nil => exact absurd (str_eq_of_data w "" (by rw [hc])) hne
  | cons a l => rfl

/-- C7 as amended: the method-prefix pattern accepts `@` followed by one or
more word characters (letters, digits or underscore — not letters only)
immediately followed by `/` (with no line terminator in the remainder, which
`.` cannot match) or end-of-string; on a match the result is the upper-cased
method word with the remainder (or `/` when there is no remainder) as
canonical path, and when the pattern does not match the method is absent and
the canonical path is the path key unchanged. -/
theorem method_prefix_word_pattern (s : String) :
    (∀ w, allWordChars w = true → w ≠ "" → s = "@" ++ w →
      parseMethodFromPath s = (some (upperStr w), "/")) ∧
    (∀ w rest, allWordChars w = true → w ≠ "" → noLineTerms rest = true →
      s = "@" ++ w ++ "/" ++ rest →
      parseMethodFromPath s = (some (upperStr w), "/" ++ rest)) ∧
    ((∀ w rest : String, ¬ (allWordChars w = true ∧ w ≠ "" ∧
        (s = "@" ++ w ∨
          (noLineTerms rest = true ∧ s = "@" ++ w ++ "/" ++ rest)))) →
      parseMethodFromPath s = (none, s)) := by
  refine ⟨?_, ?_, ?_⟩
  · intro w hw hne hs
    subst hs
    have hd : ("@" ++ w).data = '@' :: w.data := by
      rw [String.data_append]
      rfl
    rw [parseMethodFromPath_cons _ _ _ hd, if_pos rfl]
    obtain ⟨htw, hdw⟩ := takeWhile_of_all wordChar w.data hw
    rw [htw, hdw, isEmpty_data_false w hne, if_neg Bool.false_ne_true]
    rfl
  · intro w rest hw hne hnl hs
    subst hs
    have hd : ("@" ++ w ++ "/" ++ rest).data =
        '@' :: (w.data ++ '/' :: rest.data) := by
      rw [String.data_append, String.data_append, String.data_append]
      simp
    rw [parseMethodFromPath_cons _ _ _ hd, if_pos rfl]
    obtain ⟨htw, hdw⟩ :=
      takeWhile_append_stop wordChar w.data '/' rest.data hw (by decide)
    rw [htw, hdw, isEmpty_data_false w hne, if_neg Bool.false_ne_true]
    show (if (('/' : Char) = '/' && rest.data.all (fun d => !lineTerm d)) = true
        then (some (String.mk (w.data.map Char.toUpper)),
          String.mk ('/' :: rest.data))
        else (none, "@" ++ w ++ "/" ++ rest)) =
      (some (upperStr w), "/" ++ rest)
    have hcond : (('/' : Char) = '/' && rest.data.all (fun d => !lineTerm d))
        = true := by
      rw [Bool.and_eq_true]
      exact ⟨by decide, hnl⟩
    rw [if_pos hcond]
    rw [show String.mk ('/' :: rest.data) = "/" ++ rest from
      str_eq_of_data _ _ (by rw [String.data_append]; rfl)]
    rfl
  · intro h
    cases hdata : s.data with
    | nil => exact parseMethodFromPath_nil _ hdata
    | cons c rest0 =>
      rw [parseMethodFromPath_cons _ _ _ hdata]
      by_cases hc : c = '@'
      · subst hc
        rw [if_pos rfl]
        cases hie : (rest0.takeWhile wordChar).isEmpty with
        | true =>
          rw [if_pos rfl]
        | false =>
          rw [if_neg Bool.false_ne_true]
          have hWne : String.mk (rest0.takeWhile wordChar) ≠ "" := by
            intro he
            have h2 : rest0.takeWhile wordChar = [] := congrArg String.data he
            rw [h2] at hie
            have h3 : (true : Bool) = false := hie
            exact Bool.noConfusion h3
          have hWall : allWordChars (String.mk (rest0.takeWhile wordChar))
              = true := all_takeWhile wordChar rest0
          cases hdw : rest0.dropWhile wordChar with
          | nil =>
            have hseq : s = "@" ++ String.mk (rest0.takeWhile wordChar) := by
              apply str_eq_of_data
              rw [hdata, String.data_append]
              conv_lhs =>
                rw [← List.takeWhile_append_dropWhile (p := wordChar)
                  (l := rest0), hdw]
              simp
            exact absurd ⟨hWall, hWne, Or.inl hseq⟩
              (h (String.mk (rest0.takeWhile wordChar)) "")
          | cons c2 t =>
            show (if (c2 = '/' && t.all (fun d => !lineTerm d)) = true
                then (some (String.mk
                    ((rest0.takeWhile wordChar).map Char.toUpper)),
                  String.mk (c2 :: t))
                else (none, s)) = (none, s)
            by_cases hcond : (c2 = '/' && t.all (fun d => !lineTerm d)) = true
            · have hparts := hcond
              rw [Bool.and_eq_true] at hparts
              have hc2 : c2 = '/' := of_decide_eq_true hparts.1
              subst hc2
              have hseq : s = "@" ++ String.mk (rest0.takeWhile wordChar)
                  ++ "/" ++ String.mk t := by
                apply str_eq_of_data
                rw [hdata, String.data_append, String.data_append,
                  String.data_append]
                conv_lhs =>
                  rw [← List.takeWhile_append_dropWhile (p := wordChar)
                    (l := rest0), hdw]
                simp
              have hnl2 : noLineTerms (String.mk t) = true := hparts.2
              exact absurd ⟨hWall, hWne, Or.inr ⟨hnl2, hseq⟩⟩
                (h (String.mk (rest0.takeWhile wordChar)) (String.mk t))
            · rw [if_neg hcond]
      · rw [if_neg hc]

/-- Witness for the amended C7 at a concrete input: `@put/users/:id` parses
to the upper-cased method `put` with canonical path `/users/:id`. -/
theorem method_prefix_word_pattern_witness :
    parseMethodFromPath "@put/users/:id" =
      (some (upperStr "put"), "/" ++ "users/:id") :=
  (method_prefix_word_pattern "@put/users/:id").2.1 "put" "users/:id"
    (by decide) (by decide) (by decide) (by decide)
